import Mathlib

/-!
# RideReady: verification of the window/grid derivation and fetch state machine

Shallow embedding of the core logic of the RideReady single-page widget:
`findRidingWindows` (src/src/App.jsx), `organizeWeatherGrid` and
`fetchWeatherData` (src/unnamed/part_000).

Modelling conventions:
* Timestamps are absolute instants in milliseconds (`Int`), matching the
  JavaScript `Date.getTime()` view of `new Date(time[i])`.  One hour is
  `3600000` ms.
* Numeric weather values and criteria are rationals (`Rat`): the sliders take
  decimal steps and JavaScript numbers are compared with `<=`/`>=` only.
* JavaScript array indexing past the end yields `undefined`; any `<=`
  comparison against `undefined` is false.  Out-of-range reads are modelled by
  `Option`-valued lookup `l[i]?`, and the suitability test returns `false`
  unless all three lookups succeed.
* The calendar-day key `toDateString()` and `getHours()` of a local-time
  instant are modelled by flooring the millisecond count to days
  (`dayFloor`) and extracting the hour of day (`hourOf`); the forecast
  payload carries local-time stamps, so a single fixed frame suffices.
-/

namespace RideReady

/-- One hour in milliseconds (`60 * 60 * 1000` in the source). -/
def hourMs : Int := 3600000

/-- The four user-adjustable riding criteria (state hooks in `App`). -/
structure Criteria where
  maxPrecipitation : Rat
  maxWindSpeed : Rat
  minTemperature : Rat
  maxTemperature : Rat
  deriving Repr, DecidableEq

/-- The `hourly` field of the fetched Open-Meteo payload: four parallel
arrays `time`, `precipitation`, `wind_speed_10m`, `temperature_2m`. -/
structure Hourly where
  time : List Int
  precipitation : List Rat
  wind_speed_10m : List Rat
  temperature_2m : List Rat
  deriving Repr, DecidableEq

/-- A parsed JSON payload: either it lacks the `hourly` field or it has one. -/
inductive Payload where
  | noHourly : Payload
  | withHourly (hourly : Hourly) : Payload
  deriving Repr, DecidableEq

/-- A derived riding window `{start, end}` (both absolute instants). -/
structure RidingWindow where
  start : Int
  stop : Int
  deriving Repr, DecidableEq

/-- The suitability conjunction of `findRidingWindows`/`organizeWeatherGrid`:
`precipitation[i] <= maxPrecipitation && wind_speed_10m[i] <= maxWindSpeed &&
temperature_2m[i] >= minTemperature && temperature_2m[i] <= maxTemperature`,
on `Option`-valued array reads (`undefined` compares false). -/
def suitJs (c : Criteria) : Option Rat → Option Rat → Option Rat → Bool
  | some p, some w, some t =>
      decide (p ≤ c.maxPrecipitation) && decide (w ≤ c.maxWindSpeed) &&
      decide (c.minTemperature ≤ t) && decide (t ≤ c.maxTemperature)
  | _, _, _ => false

/-- `isSuitable` at loop index `i` of `findRidingWindows`. -/
def isSuitable (c : Criteria) (h : Hourly) (i : Nat) : Bool :=
  suitJs c h.precipitation[i]? h.wind_speed_10m[i]? h.temperature_2m[i]?

/-- `new Date(time[i])` at a loop index `i < time.length` (default never hit). -/
def timeAt (h : Hourly) (i : Nat) : Int :=
  h.time.getD i 0

/-- The `for (let i = 0; i < time.length; i++)` loop of `findRidingWindows`,
iterating over the list of remaining loop indices and carrying the
open-window cursor `cur` (`currentWindowStart`) and the accumulated
`ridingWindows` list `acc` (windows are pushed at the back). -/
def scanWindows (c : Criteria) (h : Hourly) :
    List Nat → Option Int → List RidingWindow → List RidingWindow × Option Int
  | [], cur, acc => (acc, cur)
  | i :: rest, cur, acc =>
    if isSuitable c h i then
      match cur with
      | none => scanWindows c h rest (some (timeAt h i)) acc
      | some s => scanWindows c h rest (some s) acc
    else
      match cur with
      | none => scanWindows c h rest none acc
      | some s => scanWindows c h rest none (acc ++ [⟨s, timeAt h i⟩])

/-- `findRidingWindows` on an `hourly` object: the forward scan over indices
`0 .. time.length - 1` followed by the post-loop close
(`end = time[time.length - 1] + 1 hour`). -/
def findRidingWindows (c : Criteria) (h : Hourly) : List RidingWindow :=
  match scanWindows c h (List.range h.time.length) none [] with
  | (acc, none) => acc
  | (acc, some s) => acc ++ [⟨s, timeAt h (h.time.length - 1) + hourMs⟩]

/-- `findRidingWindows` as called in the component: the guard
`if (!weatherData || !weatherData.hourly) return []` applied to the
(possibly null) `weatherData` state. -/
def findRidingWindowsApp (wd : Option Payload) (c : Criteria) :
    List RidingWindow :=
  match wd with
  | some (.withHourly h) => findRidingWindows c h
  | _ => []

/-! ## Grid derivation (`organizeWeatherGrid`, src/unnamed/part_000) -/

/-- Milliseconds in one calendar day. -/
def dayMs : Int := 86400000

/-- The calendar day of a local-time instant: the model of
`dateTime.toDateString()` as a grouping key (`Int./` floors for a positive
divisor, so instants of one local day share one value). -/
def dayFloor (t : Int) : Int := t / dayMs

/-- The hour of day of a local-time instant: the model of
`dateTime.getHours()` (a value in `0..23`). -/
def hourOf (t : Int) : Int := (t / hourMs) % 24

/-- One populated cell of the weather grid, as pushed by
`dayMap.get(dayKey).hours.set(hour, {...})`.  The three weather fields are
`Option`-valued because a read past an array's end is `undefined`. -/
structure GridCell where
  suitable : Bool
  temperature : Option Rat
  precipitation : Option Rat
  windSpeed : Option Rat
  isPast : Bool
  deriving Repr, DecidableEq

/-- One value of `dayMap`: the first `Date` seen for the day plus the inner
`hours` map, modelled as an insertion-ordered association list (a JavaScript
`Map` iterates in insertion order, and `set` on a present key updates the
value in place). -/
structure DayEntry where
  date : Int
  hours : List (Int × GridCell)
  deriving Repr, DecidableEq

/-- `Map.get` on an insertion-ordered association list. -/
def mapGet (m : List (Int × GridCell)) (k : Int) : Option GridCell :=
  match m with
  | [] => none
  | (k', v) :: rest => if k' = k then some v else mapGet rest k

/-- `Map.set` on an insertion-ordered association list: update the value in
place when the key is present, append otherwise. -/
def mapSet (m : List (Int × GridCell)) (k : Int) (v : GridCell) :
    List (Int × GridCell) :=
  match m with
  | [] => [(k, v)]
  | (k', v') :: rest =>
    if k' = k then (k, v) :: rest else (k', v') :: mapSet rest k v

/-- `dayMap.has(dayKey)`. -/
def hasDay (m : List (Int × DayEntry)) (k : Int) : Bool :=
  match m with
  | [] => false
  | (k', _) :: rest => k' = k || hasDay rest k

/-- `dayMap.get(dayKey)`. -/
def getDay (m : List (Int × DayEntry)) (k : Int) : Option DayEntry :=
  match m with
  | [] => none
  | (k', e) :: rest => if k' = k then some e else getDay rest k

/-- `dayMap.get(dayKey).hours.set(hour, cell)`: mutate the inner `hours` map
of the entry stored under `k` (a no-op when the key is absent, which the loop
never lets happen). -/
def setDayHours (m : List (Int × DayEntry)) (k hr : Int) (cell : GridCell) :
    List (Int × DayEntry) :=
  match m with
  | [] => []
  | (k', e) :: rest =>
    if k' = k then (k', { e with hours := mapSet e.hours hr cell }) :: rest
    else (k', e) :: setDayHours rest k hr cell

/-- `hoursSet.add(hour)` on an insertion-ordered set. -/
def addHourSet (s : List Int) (x : Int) : List Int :=
  if x ∈ s then s else s ++ [x]

/-- The grid cell object built at loop index `i` of `organizeWeatherGrid`
(suitability is the same inline conjunction as in `findRidingWindows`;
`isPast = dateTime < now`). -/
def mkCell (c : Criteria) (h : Hourly) (now : Int) (i : Nat) : GridCell :=
  { suitable := isSuitable c h i
  , temperature := h.temperature_2m[i]?
  , precipitation := h.precipitation[i]?
  , windSpeed := h.wind_speed_10m[i]?
  , isPast := decide (timeAt h i < now) }

/-- One iteration of the grouping loop of `organizeWeatherGrid`: record the
hour of day, create the day's entry on first sight, then store the cell under
`(dayKey, hour)`. -/
def gridStep (c : Criteria) (h : Hourly) (now : Int)
    (st : List (Int × DayEntry) × List Int) (i : Nat) :
    List (Int × DayEntry) × List Int :=
  let ts := timeAt h i
  let dayKey := dayFloor ts
  let hour := hourOf ts
  let hoursSet := addHourSet st.2 hour
  let dayMap := if hasDay st.1 dayKey then st.1
                else st.1 ++ [(dayKey, ⟨ts, []⟩)]
  (setDayHours dayMap dayKey hour (mkCell c h now i), hoursSet)

/-- The full grouping loop (`for (let i = 0; i < time.length; i++)`). -/
def gridLoop (c : Criteria) (h : Hourly) (now : Int) (l : List Nat)
    (st : List (Int × DayEntry) × List Int) :
    List (Int × DayEntry) × List Int :=
  l.foldl (gridStep c h now) st

/-- Stable insertion of `x` into a list sorted by the integer key `key`
(placed after all elements with a key `≤ key x`). -/
def insertByKey (key : α → Int) (x : α) : List α → List α
  | [] => [x]
  | y :: ys => if key x < key y then x :: y :: ys else y :: insertByKey key x ys

/-- Model of the stable JavaScript `Array.sort` with a numeric-key comparator
(`(a, b) => key a - key b`): a stable insertion sort. -/
def sortByKey (key : α → Int) (l : List α) : List α :=
  l.foldl (fun acc x => insertByKey key x acc) []

/-- One row of the produced grid: a day together with its cells in hour-column
order (`day.hours.get(hour) || null`). -/
structure GridRow where
  day : DayEntry
  hours : List (Option GridCell)
  deriving Repr, DecidableEq

/-- The `{ days, hours, grid }` object returned by `organizeWeatherGrid`. -/
structure GridResult where
  days : List DayEntry
  hours : List Int
  grid : List GridRow
  deriving Repr, DecidableEq

/-- `organizeWeatherGrid` on an `hourly` object, with the evaluation instant
`now` (`new Date()`) passed explicitly. -/
def organizeWeatherGrid (c : Criteria) (h : Hourly) (now : Int) : GridResult :=
  let st := gridLoop c h now (List.range h.time.length) ([], [])
  let days := sortByKey (fun e => e.date) (st.1.map (fun p => p.2))
  let hours := (sortByKey (fun x => x) st.2).filter (fun x => decide (6 ≤ x))
  let grid := days.map (fun d => ⟨d, hours.map (fun hr => mapGet d.hours hr)⟩)
  ⟨days, hours, grid⟩

/-- `organizeWeatherGrid` as called in the component: the guard
`if (!weatherData || !weatherData.hourly) return {days: [], hours: [], grid: []}`. -/
def organizeWeatherGridApp (wd : Option Payload) (c : Criteria) (now : Int) :
    GridResult :=
  match wd with
  | some (.withHourly h) => organizeWeatherGrid c h now
  | _ => ⟨[], [], []⟩

/-! ## Fetch orchestration (`fetchWeatherData`)

`fetchWeatherData` is an async closure over the React state setters.  Its
observable effect on the `(weatherData, loading, error)` state decomposes
into a synchronous start (`setLoading(true); setError(''); setWeatherData(null)`)
and, when the awaited response settles, a resolution: on a 2xx body
`setWeatherData(data)`, on a thrown error (non-2xx status or transport
failure) `setError(...)`, and in both cases `finally setLoading(false)`.
The single-threaded event loop interleaves these transitions of distinct
invocations; an execution is a list of such events applied in arrival order.
No request carries an identity: a resolution writes the state uncondition-
ally, whichever invocation it belongs to. -/

/-- The message set by the `catch` branch of `fetchWeatherData`. -/
def fetchErrorMessage : String := "Failed to fetch weather data. Please try again."

/-- The fetch-related component state: `weatherData`, `loading`, `error`. -/
structure FetchSt where
  weatherData : Option Payload
  loading : Bool
  error : String
  deriving Repr, DecidableEq

/-- The initial component state (`useState(null)`, `useState(false)`,
`useState('')`). -/
def initialFetchSt : FetchSt := ⟨none, false, ""⟩

/-- One observable transition of `fetchWeatherData` on the event loop. -/
inductive FetchEvent where
  | start
  | resolveOk (data : Payload)
  | resolveErr
  deriving Repr, DecidableEq

/-- The state transition of one event, transcribed from `fetchWeatherData`. -/
def applyEvent (s : FetchSt) : FetchEvent → FetchSt
  | .start => ⟨none, true, ""⟩
  | .resolveOk data => { s with weatherData := some data, loading := false }
  | .resolveErr => { s with error := fetchErrorMessage, loading := false }

/-- An execution: events applied in arrival order. -/
def applyEvents (s : FetchSt) (es : List FetchEvent) : FetchSt :=
  es.foldl applyEvent s

/-- JavaScript falsiness of a coordinate field (`!latitude`): the field is
`null` or the empty string. -/
def coordFalsy : Option String → Bool
  | none => true
  | some v => v = ""

/-- The synchronous prefix of one `fetchWeatherData()` invocation: the guard
`if (!latitude || !longitude) return;` followed, when it passes, by the
start transition. -/
def fetchInvoke (latitude longitude : Option String) (s : FetchSt) : FetchSt :=
  if coordFalsy latitude || coordFalsy longitude then s
  else applyEvent s .start

/-! ## The component state record

The derivation functions are closures over the component's React state.  To
state that their results depend on nothing but the payload, the criteria and
the evaluation instant, the full state is bundled in one record and the
closures are re-expressed over it. -/

/-- Every state hook of the `App` component (both source versions), plus the
evaluation instant `now` read via `new Date()`. -/
structure AppState where
  latitude : Option String
  longitude : Option String
  maxPrecipitation : Rat
  maxWindSpeed : Rat
  minTemperature : Rat
  maxTemperature : Rat
  weatherData : Option Payload
  loading : Bool
  error : String
  cityName : String
  now : Int

/-- The criteria record read from the component state. -/
def AppState.criteria (s : AppState) : Criteria :=
  ⟨s.maxPrecipitation, s.maxWindSpeed, s.minTemperature, s.maxTemperature⟩

/-- `findRidingWindows` as the closure over the component state. -/
def AppState.ridingWindows (s : AppState) : List RidingWindow :=
  findRidingWindowsApp s.weatherData s.criteria

/-- `organizeWeatherGrid` as the closure over the component state. -/
def AppState.weatherGrid (s : AppState) : GridResult :=
  organizeWeatherGridApp s.weatherData s.criteria s.now

/-! ## The window derivation as the specification words it (§4.3)

For the refinement claim, a second definition follows the specification text:
`suitable[i]` is computed pointwise over the parallel sequences (step 1), the
scan walks the timestamped suitability sequence left to right opening and
closing windows (steps 2–3), and a window still open after the final index is
closed at `timestamp[N-1] + 1 hour` (step 4).  It is compared with
`findRidingWindows`, the transcription of the source. -/

/-- Spec §4.3 step 1: the pointwise suitability sequence
`suitable[i] = precipitation[i] <= maxPrecipitation AND windSpeed[i] <=
maxWindSpeed AND temperature[i] >= minTemperature AND temperature[i] <=
maxTemperature` over the parallel sequences of an `HourlyForecast`. -/
def suitableSeq (c : Criteria) : List Rat → List Rat → List Rat → List Bool
  | p :: ps, w :: ws, t :: ts =>
      (decide (p ≤ c.maxPrecipitation) && decide (w ≤ c.maxWindSpeed) &&
       decide (c.minTemperature ≤ t) && decide (t ≤ c.maxTemperature))
        :: suitableSeq c ps ws ts
  | _, _, _ => []

/-- Spec §4.3 steps 2–4: scan the `(timestamp, suitable)` sequence left to
right with an open-window-start cursor; open at `timestamp[i]` when suitable
and no window is open, close with end `timestamp[i]` at the first unsuitable
index, and close a window still open after the final index with end
`lastEnd` (`timestamp[N-1] + 1 hour`). -/
def specScan (lastEnd : Int) : List (Int × Bool) → Option Int → List RidingWindow
  | [], none => []
  | [], some s => [⟨s, lastEnd⟩]
  | (ts, b) :: rest, none =>
      if b then specScan lastEnd rest (some ts) else specScan lastEnd rest none
  | (ts, b) :: rest, some s =>
      if b then specScan lastEnd rest (some s)
      else ⟨s, ts⟩ :: specScan lastEnd rest none

/-- Spec §4.3, the whole contract `deriveWindows(forecast, criteria)`. -/
def deriveWindowsSpec (c : Criteria) (h : Hourly) : List RidingWindow :=
  specScan (h.time.getD (h.time.length - 1) 0 + hourMs)
    (h.time.zip
      (suitableSeq c h.precipitation h.wind_speed_10m h.temperature_2m)) none

/-- The post-loop close of `findRidingWindows`, abstracted over the scan
result: emit the still-open window with the given end instant. -/
def closeScan (lastEnd : Int) (r : List RidingWindow × Option Int) :
    List RidingWindow :=
  match r with
  | (acc, none) => acc
  | (acc, some s) => acc ++ [⟨s, lastEnd⟩]

/-- The grid cell reachable from a `dayMap` under day key `k` and hour `hr`:
`dayMap.get(k)?.hours.get(hr)`. -/
def lookupCell (m : List (Int × DayEntry)) (k hr : Int) : Option GridCell :=
  (getDay m k).bind fun e => mapGet e.hours hr

/-! ## Concrete scenario inputs (§8) -/

/-- Scenario A: four consecutive hours, wind `[5, 5, 25, 5]` km/h,
precipitation `[0, 0, 0, 0]`, temperature `[15, 15, 15, 15]`; hour `k`
starts at `k * 3600000` ms. -/
def scenarioAHourly : Hourly :=
  { time := [0, 3600000, 7200000, 10800000]
  , precipitation := [0, 0, 0, 0]
  , wind_speed_10m := [5, 5, 25, 5]
  , temperature_2m := [15, 15, 15, 15] }

/-- Scenario A criteria `{maxPrecip = 0, maxWind = 20, minTemp = 10,
maxTemp = 35}` (the component defaults). -/
def scenarioACriteria : Criteria := ⟨0, 20, 10, 35⟩

/-- A one-observation payload used by the race and refresh scenarios. -/
def payloadOneHour (temp : Rat) : Payload :=
  .withHourly { time := [0], precipitation := [0], wind_speed_10m := [5]
              , temperature_2m := [temp] }

/-! ## Raw payloads and the TypeError path

The guard `if (!weatherData || !weatherData.hourly)` only checks that the
`hourly` field is truthy.  A payload whose `hourly` is an object lacking one
of the four arrays passes the guard, and the loops then throw a TypeError:
`time.length` on `undefined` before any iteration when `time` is absent, and
`precipitation[i]` / `wind_speed_10m[i]` / `temperature_2m[i]` on
`undefined` inside an iteration otherwise (in `findRidingWindows` the three
reads are unconditional statements at the top of the body; in
`organizeWeatherGrid` the short-circuited conjunction may skip a read, but
the cell object literal then reads all three arrays in the same iteration,
so an iteration completes exactly when all three arrays exist).  To express
these shapes, a raw `hourly` object carries each array as an `Option`, the
derivations return `Option` results, and `none` models the uncaught
TypeError.  `Hourly` is the all-arrays-present slice of this raw model
(see the bridge theorems `findRidingWindowsJs_toJs`,
`organizeWeatherGridJs_toJs`). -/

/-- A raw `hourly` JSON object: each of the four array fields may be absent
(`undefined` after the destructuring). -/
structure HourlyJs where
  time : Option (List Int)
  precipitation : Option (List Rat)
  wind_speed_10m : Option (List Rat)
  temperature_2m : Option (List Rat)
  deriving Repr, DecidableEq

/-- A raw parsed JSON payload: no `hourly` field, or a raw `hourly` object. -/
inductive PayloadJs where
  | noHourly : PayloadJs
  | withHourly (hourly : HourlyJs) : PayloadJs
  deriving Repr, DecidableEq

/-- The well-shaped payload viewed as a raw one. -/
def Hourly.toJs (h : Hourly) : HourlyJs :=
  ⟨some h.time, some h.precipitation, some h.wind_speed_10m,
    some h.temperature_2m⟩

/-- The three weather-array reads of one loop iteration: a TypeError
(`none`) when one of the arrays is `undefined`, the `Option`-valued element
reads otherwise. -/
def readHourJs (hj : HourlyJs) (i : Nat) :
    Option (Option Rat × Option Rat × Option Rat) :=
  match hj.precipitation, hj.wind_speed_10m, hj.temperature_2m with
  | some pl, some wl, some tl => some (pl[i]?, wl[i]?, tl[i]?)
  | _, _, _ => none

/-- The scan loop of `findRidingWindows` on a raw payload: each iteration
first performs the three array reads (throwing on an absent array), then
proceeds exactly as `scanWindows`. -/
def scanWindowsJs (c : Criteria) (hj : HourlyJs) (time : List Int) :
    List Nat → Option Int → List RidingWindow →
      Option (List RidingWindow × Option Int)
  | [], cur, acc => some (acc, cur)
  | i :: rest, cur, acc =>
    match readHourJs hj i with
    | none => none
    | some (pv, wv, tv) =>
      if suitJs c pv wv tv then
        match cur with
        | none => scanWindowsJs c hj time rest (some (time.getD i 0)) acc
        | some s => scanWindowsJs c hj time rest (some s) acc
      else
        match cur with
        | none => scanWindowsJs c hj time rest none acc
        | some s =>
            scanWindowsJs c hj time rest none (acc ++ [⟨s, time.getD i 0⟩])

/-- `findRidingWindows` on a raw payload, including the guard and the
TypeError paths (`none`): `time.length` throws when `time` is absent,
the scan may throw inside an iteration, and the post-loop close is as in
the source. -/
def findRidingWindowsJs (wd : Option PayloadJs) (c : Criteria) :
    Option (List RidingWindow) :=
  match wd with
  | some (.withHourly hj) =>
    match hj.time with
    | none => none
    | some time =>
      match scanWindowsJs c hj time (List.range time.length) none [] with
      | none => none
      | some (acc, none) => some acc
      | some (acc, some s) =>
          some (acc ++ [⟨s, time.getD (time.length - 1) 0 + hourMs⟩])
  | _ => some []

/-- The grid cell built at one iteration of `organizeWeatherGrid` on a raw
payload: the iteration throws (`none`) when one of the three weather arrays
is absent (either inside the suitability conjunction or in the cell object
literal, which reads all three), and otherwise builds the cell from the
`Option`-valued reads. -/
def mkCellJs (c : Criteria) (hj : HourlyJs) (now ts : Int) (i : Nat) :
    Option GridCell :=
  match readHourJs hj i with
  | none => none
  | some (pv, wv, tv) =>
    some ⟨suitJs c pv wv tv, tv, pv, wv, decide (ts < now)⟩

/-- One iteration of the grouping loop of `organizeWeatherGrid` on a raw
payload: as `gridStep`, except that the iteration may throw. -/
def gridStepJs (c : Criteria) (hj : HourlyJs) (now : Int) (time : List Int)
    (st : List (Int × DayEntry) × List Int) (i : Nat) :
    Option (List (Int × DayEntry) × List Int) :=
  let ts := time.getD i 0
  match mkCellJs c hj now ts i with
  | none => none
  | some cell =>
    let dayKey := dayFloor ts
    let hour := hourOf ts
    let hoursSet := addHourSet st.2 hour
    let dayMap := if hasDay st.1 dayKey then st.1
                  else st.1 ++ [(dayKey, ⟨ts, []⟩)]
    some (setDayHours dayMap dayKey hour cell, hoursSet)

/-- The full grouping loop on a raw payload: a thrown iteration aborts the
whole call. -/
def gridLoopJs (c : Criteria) (hj : HourlyJs) (now : Int) (time : List Int) :
    List Nat → List (Int × DayEntry) × List Int →
      Option (List (Int × DayEntry) × List Int)
  | [], st => some st
  | i :: rest, st =>
    match gridStepJs c hj now time st i with
    | none => none
    | some st' => gridLoopJs c hj now time rest st'

/-- `organizeWeatherGrid` on a raw payload, including the guard and the
TypeError paths (`none`). -/
def organizeWeatherGridJs (wd : Option PayloadJs) (c : Criteria) (now : Int) :
    Option GridResult :=
  match wd with
  | some (.withHourly hj) =>
    match hj.time with
    | none => none
    | some time =>
      match gridLoopJs c hj now time (List.range time.length) ([], []) with
      | none => none
      | some st =>
        let days := sortByKey (fun e => e.date) (st.1.map (fun p => p.2))
        let hours := (sortByKey (fun x => x) st.2).filter
          (fun x => decide (6 ≤ x))
        some ⟨days, hours,
          days.map (fun d => ⟨d, hours.map (fun hr => mapGet d.hours hr)⟩)⟩
  | _ => some ⟨[], [], []⟩

/-! ## Lemmas about the window scan -/

theorem scanWindows_all_unsuitable (c : Criteria) (h : Hourly) :
    ∀ (l : List Nat) (acc : List RidingWindow),
      (∀ i ∈ l, isSuitable c h i = false) →
      scanWindows c h l none acc = (acc, none) := by
  intro l
  induction l with
  | nil => intro acc _; rfl
  | cons i rest ih =>
    intro acc hall
    have hi : isSuitable c h i = false := hall i (by simp)
    simp only [scanWindows, hi, Bool.false_eq_true, if_false]
    exact ih acc (fun j hj => hall j (by simp [hj]))

theorem scanWindows_all_suitable (c : Criteria) (h : Hourly) :
    ∀ (l : List Nat) (s : Int) (acc : List RidingWindow),
      (∀ i ∈ l, isSuitable c h i = true) →
      scanWindows c h l (some s) acc = (acc, some s) := by
  intro l
  induction l with
  | nil => intro s acc _; rfl
  | cons i rest ih =>
    intro s acc hall
    have hi : isSuitable c h i = true := hall i (by simp)
    simp only [scanWindows, hi, if_true]
    exact ih s acc (fun j hj => hall j (by simp [hj]))

theorem isSuitable_of_degenerate (c : Criteria)
    (hc : c.maxTemperature < c.minTemperature) (h : Hourly) (i : Nat) :
    isSuitable c h i = false := by
  unfold isSuitable suitJs
  cases h.precipitation[i]? with
  | none => rfl
  | some p =>
    cases h.wind_speed_10m[i]? with
    | none => rfl
    | some w =>
      cases h.temperature_2m[i]? with
      | none => rfl
      | some t =>
        simp only [Bool.and_eq_false_iff, decide_eq_false_iff_not, not_le]
        by_cases h1 : c.minTemperature ≤ t
        · right; linarith
        · left; right; simpa using h1

theorem findRidingWindows_empty_time (c : Criteria) (h : Hourly)
    (htime : h.time = []) : findRidingWindows c h = [] := by
  unfold findRidingWindows
  rw [htime]
  rfl

theorem organizeWeatherGrid_empty_time (c : Criteria) (h : Hourly) (now : Int)
    (htime : h.time = []) :
    organizeWeatherGrid c h now = ⟨[], [], []⟩ := by
  unfold organizeWeatherGrid gridLoop
  rw [htime]
  rfl

theorem closeScan_cons (lastEnd : Int) (w : RidingWindow)
    (acc : List RidingWindow) (cur : Option Int) :
    closeScan lastEnd (w :: acc, cur) = w :: closeScan lastEnd (acc, cur) := by
  cases cur <;> rfl

theorem findRidingWindows_eq_closeScan (c : Criteria) (h : Hourly) :
    findRidingWindows c h =
      closeScan (timeAt h (h.time.length - 1) + hourMs)
        (scanWindows c h (List.range h.time.length) none []) := by
  unfold findRidingWindows closeScan
  rfl

theorem scanWindows_acc (c : Criteria) (h : Hourly) :
    ∀ (l : List Nat) (cur : Option Int) (acc : List RidingWindow),
      scanWindows c h l cur acc =
        (acc ++ (scanWindows c h l cur []).1, (scanWindows c h l cur []).2) := by
  intro l
  induction l with
  | nil => intro cur acc; simp [scanWindows]
  | cons i rest ih =>
    intro cur acc
    by_cases hs : isSuitable c h i = true
    · cases cur <;> simp only [scanWindows, hs, if_true] <;> exact ih _ acc
    · rw [Bool.not_eq_true] at hs
      cases cur with
      | none =>
        simp only [scanWindows, hs, Bool.false_eq_true, if_false]
        exact ih none acc
      | some s =>
        simp only [scanWindows, hs, Bool.false_eq_true, if_false]
        rw [ih none (acc ++ [RidingWindow.mk s (timeAt h i)]),
          ih none ([] ++ [RidingWindow.mk s (timeAt h i)])]
        simp

theorem suitableSeq_length (c : Criteria) :
    ∀ (ps ws ts : List Rat),
      (suitableSeq c ps ws ts).length =
        min ps.length (min ws.length ts.length) := by
  intro ps
  induction ps with
  | nil => intro ws ts; simp [suitableSeq]
  | cons p ps ih =>
    intro ws ts
    cases ws with
    | nil => simp [suitableSeq]
    | cons w ws =>
      cases ts with
      | nil => simp [suitableSeq]
      | cons t ts => simp [suitableSeq, ih]; omega

theorem suitableSeq_getElem? (c : Criteria) :
    ∀ (ps ws ts : List Rat) (i : Nat),
      (suitableSeq c ps ws ts)[i]? =
        ps[i]?.bind fun p => ws[i]?.bind fun w => ts[i]?.map fun t =>
          decide (p ≤ c.maxPrecipitation) && decide (w ≤ c.maxWindSpeed) &&
          decide (c.minTemperature ≤ t) && decide (t ≤ c.maxTemperature) := by
  intro ps
  induction ps with
  | nil => intro ws ts i; simp [suitableSeq]
  | cons p ps ih =>
    intro ws ts i
    cases ws with
    | nil => cases i <;> simp [suitableSeq]
    | cons w ws =>
      cases ts with
      | nil => cases i <;> simp [suitableSeq]
      | cons t ts =>
        cases i with
        | zero => simp [suitableSeq]
        | succ j => simpa [suitableSeq] using ih ws ts j

theorem suitableSeq_getElem_eq_isSuitable (c : Criteria) (h : Hourly)
    (hp : h.precipitation.length = h.time.length)
    (hw : h.wind_speed_10m.length = h.time.length)
    (ht : h.temperature_2m.length = h.time.length)
    (i : Nat) (hi : i < h.time.length) :
    (suitableSeq c h.precipitation h.wind_speed_10m h.temperature_2m)[i]? =
      some (isSuitable c h i) := by
  rw [suitableSeq_getElem?]
  rw [List.getElem?_eq_getElem (by omega : i < h.precipitation.length),
      List.getElem?_eq_getElem (by omega : i < h.wind_speed_10m.length),
      List.getElem?_eq_getElem (by omega : i < h.temperature_2m.length)]
  unfold isSuitable suitJs
  rw [List.getElem?_eq_getElem (by omega : i < h.precipitation.length),
      List.getElem?_eq_getElem (by omega : i < h.wind_speed_10m.length),
      List.getElem?_eq_getElem (by omega : i < h.temperature_2m.length)]
  rfl

theorem scanWindows_spec_bridge (c : Criteria) (h : Hourly)
    (hp : h.precipitation.length = h.time.length)
    (hw : h.wind_speed_10m.length = h.time.length)
    (ht : h.temperature_2m.length = h.time.length) (lastEnd : Int) :
    ∀ (m k : Nat), k + m = h.time.length → ∀ cur : Option Int,
      closeScan lastEnd (scanWindows c h (List.range' k m) cur []) =
        specScan lastEnd
          ((h.time.drop k).zip
            ((suitableSeq c h.precipitation h.wind_speed_10m
              h.temperature_2m).drop k)) cur := by
  intro m
  set S := suitableSeq c h.precipitation h.wind_speed_10m h.temperature_2m
    with hS
  have hSlen : S.length = h.time.length := by
    rw [hS, suitableSeq_length]; omega
  induction m with
  | zero =>
    intro k hk cur
    have h1 : h.time.drop k = [] := by
      apply List.drop_eq_nil_of_le; omega
    have h2 : S.drop k = [] := by
      apply List.drop_eq_nil_of_le; omega
    rw [h1, h2]
    cases cur <;> rfl
  | succ n ih =>
    intro k hk cur
    have hkN : k < h.time.length := by omega
    have hkS : k < S.length := by omega
    have hdt : h.time.drop k = h.time[k] :: h.time.drop (k + 1) :=
      List.drop_eq_getElem_cons hkN
    have hdS : S.drop k = S[k] :: S.drop (k + 1) :=
      List.drop_eq_getElem_cons hkS
    have hSk : S[k] = isSuitable c h k := by
      have := suitableSeq_getElem_eq_isSuitable c h hp hw ht k hkN
      rw [← hS] at this
      rw [List.getElem?_eq_getElem hkS] at this
      exact Option.some.inj this
    have htk : h.time[k] = timeAt h k := by
      unfold timeAt
      rw [List.getD_eq_getElem?_getD, List.getElem?_eq_getElem hkN]
      rfl
    rw [hdt, hdS, List.zip_cons_cons, List.range'_succ]
    by_cases hs : isSuitable c h k = true
    · cases cur with
      | none =>
        simp only [scanWindows, hs, if_true, specScan, hSk, htk]
        exact ih (k + 1) (by omega) (some (timeAt h k))
      | some s =>
        simp only [scanWindows, hs, if_true, specScan, hSk, htk]
        exact ih (k + 1) (by omega) (some s)
    · rw [Bool.not_eq_true] at hs
      cases cur with
      | none =>
        simp only [scanWindows, hs, Bool.false_eq_true, if_false, specScan,
          hSk, htk]
        exact ih (k + 1) (by omega) none
      | some s =>
        simp only [scanWindows, hs, Bool.false_eq_true, if_false, specScan,
          hSk, htk]
        rw [scanWindows_acc c h (List.range' (k + 1) n) none
          ([] ++ [RidingWindow.mk s (timeAt h k)])]
        simp only [List.nil_append, List.singleton_append]
        rw [closeScan_cons]
        congr 1
        have hit := ih (k + 1) (by omega) none
        rw [← hit]

theorem windows_chain_le_all (x : RidingWindow) :
    ∀ (l : List RidingWindow),
      (∀ w ∈ l, w.start < w.stop) →
      List.Chain (fun a b => a.stop ≤ b.start) x l →
      ∀ y ∈ l, x.stop ≤ y.start := by
  intro l
  induction l generalizing x with
  | nil => intro _ _ y hy; simp at hy
  | cons z zs ih =>
    intro hpos hch y hy
    rw [List.chain_cons] at hch
    rcases List.mem_cons.mp hy with rfl | hy'
    · exact hch.1
    · have hz : z.stop ≤ y.start :=
        ih z (fun w hw => hpos w (by simp [hw])) hch.2 y hy'
      have hxz : x.stop ≤ z.start := hch.1
      have hzz : z.start < z.stop := hpos z (by simp)
      linarith

theorem windows_chain'_pairwise :
    ∀ (l : List RidingWindow),
      (∀ w ∈ l, w.start < w.stop) →
      List.Chain' (fun a b => a.stop ≤ b.start) l →
      List.Pairwise (fun a b => a.stop ≤ b.start) l := by
  intro l
  induction l with
  | nil => intro _ _; exact List.Pairwise.nil
  | cons x xs ih =>
    intro hpos hch
    have hch' : List.Chain (fun a b => a.stop ≤ b.start) x xs := hch
    have hxs : List.Chain' (fun a b => a.stop ≤ b.start) xs := by
      cases xs with
      | nil => trivial
      | cons z zs => exact (List.chain_cons.mp hch').2
    exact List.Pairwise.cons
      (windows_chain_le_all x xs (fun w hw => hpos w (by simp [hw])) hch')
      (ih (fun w hw => hpos w (by simp [hw])) hxs)

theorem scanWindows_invariant (c : Criteria) (h : Hourly)
    (hmono : ∀ i j : Nat, i < j → j < h.time.length →
      timeAt h i < timeAt h j) :
    ∀ (l : List Nat) (cur : Option Int) (acc : List RidingWindow),
      (∀ i ∈ l, i < h.time.length) →
      List.Pairwise (· < ·) l →
      (∀ w ∈ acc, w.start < w.stop) →
      List.Chain' (fun a b => a.stop ≤ b.start) acc →
      (∀ s, cur = some s →
        (∃ j, j < h.time.length ∧ s = timeAt h j ∧ ∀ i ∈ l, j < i) ∧
        ∀ w ∈ acc, w.stop ≤ s) →
      (cur = none → ∀ w ∈ acc, ∀ i ∈ l, w.stop ≤ timeAt h i) →
      (∀ w ∈ (scanWindows c h l cur acc).1, w.start < w.stop) ∧
      List.Chain' (fun a b => a.stop ≤ b.start) (scanWindows c h l cur acc).1 ∧
      (∀ s, (scanWindows c h l cur acc).2 = some s →
        (∃ j, j < h.time.length ∧ s = timeAt h j) ∧
        ∀ w ∈ (scanWindows c h l cur acc).1, w.stop ≤ s) := by
  intro l
  induction l with
  | nil =>
    intro cur acc _ _ hpos hchain hsome _
    refine ⟨hpos, hchain, ?_⟩
    intro s hs
    obtain ⟨⟨j, hj, hsj, _⟩, hst⟩ := hsome s hs
    exact ⟨⟨j, hj, hsj⟩, hst⟩
  | cons i rest ih =>
    intro cur acc hbound hpw hpos hchain hsome hnone
    have hiN : i < h.time.length := hbound i (by simp)
    have hrb : ∀ j ∈ rest, j < h.time.length :=
      fun j hj => hbound j (by simp [hj])
    have hhead : ∀ j ∈ rest, i < j := (List.pairwise_cons.mp hpw).1
    have hrpw : List.Pairwise (· < ·) rest := hpw.of_cons
    by_cases hs : isSuitable c h i = true
    · cases cur with
      | none =>
        simp only [scanWindows, hs, if_true]
        refine ih (some (timeAt h i)) acc hrb hrpw hpos hchain ?_ ?_
        · intro s hseq
          have hsi : s = timeAt h i := (Option.some.inj hseq).symm
          refine ⟨⟨i, hiN, hsi, hhead⟩, ?_⟩
          intro w hw
          have := hnone rfl w hw i (by simp)
          rw [hsi]
          exact this
        · intro hcon; cases hcon
      | some s =>
        simp only [scanWindows, hs, if_true]
        refine ih (some s) acc hrb hrpw hpos hchain ?_ ?_
        · intro s' hs'
          have hss : s' = s := (Option.some.inj hs').symm
          obtain ⟨⟨j, hjN, hsj, hjl⟩, hstops⟩ := hsome s rfl
          subst hss
          exact ⟨⟨j, hjN, hsj, fun i' hi' => hjl i' (by simp [hi'])⟩, hstops⟩
        · intro hcon; cases hcon
    · rw [Bool.not_eq_true] at hs
      cases cur with
      | none =>
        simp only [scanWindows, hs, Bool.false_eq_true, if_false]
        refine ih none acc hrb hrpw hpos hchain ?_ ?_
        · intro s hcon; cases hcon
        · intro _ w hw i' hi'
          exact hnone rfl w hw i' (by simp [hi'])
      | some s =>
        simp only [scanWindows, hs, Bool.false_eq_true, if_false]
        obtain ⟨⟨j, hjN, hsj, hjl⟩, hstops⟩ := hsome s rfl
        have hji : j < i := hjl i (by simp)
        have hnewpos : s < timeAt h i := by
          rw [hsj]; exact hmono j i hji hiN
        refine ih none (acc ++ [RidingWindow.mk s (timeAt h i)]) hrb hrpw
          ?_ ?_ ?_ ?_
        · intro w hw
          rcases List.mem_append.mp hw with hw' | hw'
          · exact hpos w hw'
          · rcases List.mem_singleton.mp hw' with rfl
            exact hnewpos
        · rw [List.chain'_append]
          refine ⟨hchain, List.chain'_singleton _, ?_⟩
          intro x hx y hy
          have hyw : RidingWindow.mk s (timeAt h i) = y := by
            simpa using hy
          rw [← hyw]
          exact hstops x (List.mem_of_mem_getLast? hx)
        · intro s' hcon; cases hcon
        · intro _ w hw i' hi'
          have hiN' : i' < h.time.length := hrb i' hi'
          rcases List.mem_append.mp hw with hw' | hw'
          · have h1 : w.stop ≤ s := hstops w hw'
            have h2 : timeAt h j < timeAt h i' :=
              hmono j i' (lt_trans hji (hhead i' hi')) hiN'
            rw [hsj] at h1
            linarith
          · rcases List.mem_singleton.mp hw' with rfl
            exact le_of_lt (hmono i i' (hhead i' hi') hiN')

/-! ## Lemmas about the stable key sort -/

theorem insertByKey_perm (key : α → Int) (x : α) :
    ∀ l : List α, (insertByKey key x l).Perm (x :: l) := by
  intro l
  induction l with
  | nil => exact List.Perm.refl _
  | cons y ys ih =>
    unfold insertByKey
    by_cases hxy : key x < key y
    · simp only [hxy, if_true]
      exact List.Perm.refl _
    · simp only [hxy, if_false]
      exact (ih.cons y).trans (List.Perm.swap x y ys)

theorem insertByKey_sorted (key : α → Int) (x : α) :
    ∀ l : List α, List.Pairwise (fun a b => key a ≤ key b) l →
      List.Pairwise (fun a b => key a ≤ key b) (insertByKey key x l) := by
  intro l
  induction l with
  | nil => intro _; simp [insertByKey]
  | cons y ys ih =>
    intro hpw
    obtain ⟨hy, hys⟩ := List.pairwise_cons.mp hpw
    unfold insertByKey
    by_cases hxy : key x < key y
    · simp only [hxy, if_true]
      refine List.Pairwise.cons ?_ hpw
      intro b hb
      rcases List.mem_cons.mp hb with rfl | hb'
      · exact le_of_lt hxy
      · exact le_trans (le_of_lt hxy) (hy b hb')
    · simp only [hxy, if_false]
      refine List.Pairwise.cons ?_ (ih hys)
      intro b hb
      have hb' : b ∈ x :: ys := (insertByKey_perm key x ys).mem_iff.mp hb
      rcases List.mem_cons.mp hb' with rfl | hb''
      · exact le_of_not_lt hxy
      · exact hy b hb''

theorem sortByKey_foldl_perm (key : α → Int) :
    ∀ (l acc : List α),
      (l.foldl (fun acc x => insertByKey key x acc) acc).Perm (acc ++ l) := by
  intro l
  induction l with
  | nil => intro acc; simp
  | cons x xs ih =>
    intro acc
    have h1 := ih (insertByKey key x acc)
    have h2 : (insertByKey key x acc ++ xs).Perm (acc ++ x :: xs) := by
      refine ((insertByKey_perm key x acc).append_right xs).trans ?_
      exact List.perm_middle.symm
    exact h1.trans h2

theorem sortByKey_perm (key : α → Int) (l : List α) :
    (sortByKey key l).Perm l := by
  unfold sortByKey
  simpa using sortByKey_foldl_perm key l []

theorem sortByKey_sorted (key : α → Int) (l : List α) :
    List.Pairwise (fun a b => key a ≤ key b) (sortByKey key l) := by
  unfold sortByKey
  suffices hgen : ∀ (l acc : List α),
      List.Pairwise (fun a b => key a ≤ key b) acc →
      List.Pairwise (fun a b => key a ≤ key b)
        (l.foldl (fun acc x => insertByKey key x acc) acc) by
    exact hgen l [] (by simp)
  intro l'
  induction l' with
  | nil => intro acc hacc; exact hacc
  | cons x xs ih =>
    intro acc hacc
    exact ih (insertByKey key x acc) (insertByKey_sorted key x acc hacc)

/-! ## Lemmas about the grid grouping loop -/

theorem hasDay_iff_mem_keys :
    ∀ (m : List (Int × DayEntry)) (k : Int),
      hasDay m k = true ↔ k ∈ m.map Prod.fst := by
  intro m k
  induction m with
  | nil => simp [hasDay]
  | cons p rest ih =>
    simp only [hasDay, Bool.or_eq_true, decide_eq_true_eq, ih, List.map_cons,
      List.mem_cons]
    exact or_congr ⟨Eq.symm, Eq.symm⟩ Iff.rfl

theorem setDayHours_proj :
    ∀ (m : List (Int × DayEntry)) (k hr : Int) (cell : GridCell),
      (setDayHours m k hr cell).map (fun p => (p.1, p.2.date)) =
        m.map (fun p => (p.1, p.2.date)) := by
  intro m k hr cell
  induction m with
  | nil => rfl
  | cons p rest ih =>
    unfold setDayHours
    by_cases hk : p.1 = k
    · simp [hk]
    · simp [hk, ih]

theorem setDayHours_keys (m : List (Int × DayEntry)) (k hr : Int)
    (cell : GridCell) :
    (setDayHours m k hr cell).map Prod.fst = m.map Prod.fst := by
  have hp := setDayHours_proj m k hr cell
  have h1 := congrArg (List.map Prod.fst) hp
  simpa [List.map_map, Function.comp] using h1

theorem addHourSet_nodup (s : List Int) (x : Int) (hs : s.Nodup) :
    (addHourSet s x).Nodup := by
  unfold addHourSet
  by_cases hx : x ∈ s
  · simpa [hx] using hs
  · simp [hx, List.nodup_append, hs]

theorem gridStep_dayInv (c : Criteria) (h : Hourly) (now : Int)
    (dm : List (Int × DayEntry)) (hs : List Int) (i : Nat)
    (hkeys : (dm.map Prod.fst).Nodup)
    (hdates : ∀ p ∈ dm, dayFloor p.2.date = p.1) (hhs : hs.Nodup) :
    ((gridStep c h now (dm, hs) i).1.map Prod.fst).Nodup ∧
    (∀ p ∈ (gridStep c h now (dm, hs) i).1, dayFloor p.2.date = p.1) ∧
    (gridStep c h now (dm, hs) i).2.Nodup := by
  unfold gridStep
  set dm1 := if hasDay dm (dayFloor (timeAt h i)) then dm
    else dm ++ [(dayFloor (timeAt h i), ⟨timeAt h i, []⟩)] with hdm1
  have hkeys1 : (dm1.map Prod.fst).Nodup := by
    rw [hdm1]
    by_cases hd : hasDay dm (dayFloor (timeAt h i)) = true
    · simpa [hd] using hkeys
    · have hnotmem : dayFloor (timeAt h i) ∉ dm.map Prod.fst := by
        intro hmem
        exact hd ((hasDay_iff_mem_keys dm _).mpr hmem)
      rw [Bool.not_eq_true] at hd
      simp only [hd, Bool.false_eq_true, if_false, List.map_append,
        List.map_cons, List.map_nil]
      refine List.Nodup.append hkeys (List.nodup_singleton _) ?_
      intro a ha hb
      rw [List.mem_singleton] at hb
      subst hb
      exact hnotmem ha
  have hdates1 : ∀ p ∈ dm1, dayFloor p.2.date = p.1 := by
    rw [hdm1]
    by_cases hd : hasDay dm (dayFloor (timeAt h i)) = true
    · simpa [hd] using hdates
    · rw [Bool.not_eq_true] at hd
      simp only [hd, Bool.false_eq_true, if_false]
      intro p hp
      rcases List.mem_append.mp hp with hp' | hp'
      · exact hdates p hp'
      · rcases List.mem_singleton.mp hp' with rfl
        rfl
  refine ⟨?_, ?_, addHourSet_nodup hs _ hhs⟩
  · rw [setDayHours_keys]
    exact hkeys1
  · intro p hp
    have hmem : (p.1, p.2.date) ∈
        (setDayHours dm1 (dayFloor (timeAt h i)) (hourOf (timeAt h i))
          (mkCell c h now i)).map (fun p => (p.1, p.2.date)) :=
      List.mem_map.mpr ⟨p, hp, rfl⟩
    rw [setDayHours_proj] at hmem
    obtain ⟨q, hq, hqe⟩ := List.mem_map.mp hmem
    injection hqe with h1 h2
    rw [← h1, ← h2]
    exact hdates1 q hq

theorem gridLoop_dayInv (c : Criteria) (h : Hourly) (now : Int) :
    ∀ (l : List Nat) (dm : List (Int × DayEntry)) (hs : List Int),
      (dm.map Prod.fst).Nodup →
      (∀ p ∈ dm, dayFloor p.2.date = p.1) →
      hs.Nodup →
      ((gridLoop c h now l (dm, hs)).1.map Prod.fst).Nodup ∧
      (∀ p ∈ (gridLoop c h now l (dm, hs)).1, dayFloor p.2.date = p.1) ∧
      (gridLoop c h now l (dm, hs)).2.Nodup := by
  intro l
  induction l with
  | nil => intro dm hs h1 h2 h3; exact ⟨h1, h2, h3⟩
  | cons i rest ih =>
    intro dm hs h1 h2 h3
    obtain ⟨g1, g2, g3⟩ := gridStep_dayInv c h now dm hs i h1 h2 h3
    have hstep : gridLoop c h now (i :: rest) (dm, hs) =
        gridLoop c h now rest (gridStep c h now (dm, hs) i) := rfl
    rw [hstep]
    have := ih (gridStep c h now (dm, hs) i).1 (gridStep c h now (dm, hs) i).2
      g1 g2 g3
    simpa using this

/-! ## Lemmas about the day/hour map lookups -/

theorem mapGet_mapSet (m : List (Int × GridCell)) (k : Int) (v : GridCell)
    (k' : Int) :
    mapGet (mapSet m k v) k' = if k = k' then some v else mapGet m k' := by
  induction m with
  | nil =>
    by_cases hk : k = k' <;> simp [mapSet, mapGet, hk]
  | cons p rest ih =>
    unfold mapSet
    by_cases h1 : p.1 = k
    · by_cases h2 : k = k'
      · simp [mapGet, h1, h2]
      · simp only [h1, if_true]
        unfold mapGet
        simp only [h2, if_false]
        rw [← h1] at h2
        simp [mapGet, h2]
    · simp only [h1, if_false]
      unfold mapGet
      by_cases h3 : p.1 = k'
      · have : ¬ k = k' := fun hkk => h1 (hkk ▸ h3)
        simp [h3, this]
      · simp [h3, ih]

theorem getDay_isSome_iff_mem (m : List (Int × DayEntry)) (k : Int) :
    (getDay m k).isSome = true ↔ k ∈ m.map Prod.fst := by
  induction m with
  | nil => simp [getDay]
  | cons p rest ih =>
    unfold getDay
    by_cases h1 : p.1 = k
    · simp [h1]
    · have : ¬ k = p.1 := fun hk => h1 hk.symm
      simp [h1, ih, this]

theorem getDay_setDayHours (k hr : Int) (cell : GridCell) :
    ∀ (m : List (Int × DayEntry)) (k' : Int),
      getDay (setDayHours m k hr cell) k' =
        if k = k' then
          (getDay m k).map (fun e => { e with hours := mapSet e.hours hr cell })
        else getDay m k' := by
  intro m
  induction m with
  | nil =>
    intro k'
    unfold setDayHours getDay
    by_cases hk : k = k' <;> simp [hk]
  | cons p rest ih =>
    intro k'
    unfold setDayHours
    by_cases h1 : p.1 = k
    · simp only [h1, if_true]
      by_cases h2 : k = k'
      · subst h2
        simp [getDay, h1]
      · have h3 : ¬ p.1 = k' := fun hp => h2 (h1 ▸ hp)
        simp [getDay, h2, h3]
    · simp only [h1, if_false]
      by_cases h2 : k = k'
      · subst h2
        simp [getDay, h1, ih]
      · by_cases h3 : p.1 = k'
        · simp [getDay, h2, h3]
        · simp [getDay, h2, h3, ih]

theorem getDay_append_of_isSome (m₂ : List (Int × DayEntry)) (k : Int) :
    ∀ m : List (Int × DayEntry), (getDay m k).isSome = true →
      getDay (m ++ m₂) k = getDay m k := by
  intro m
  induction m with
  | nil => intro hcon; simp [getDay] at hcon
  | cons p rest ih =>
    obtain ⟨pk, pe⟩ := p
    intro hs
    by_cases h1 : pk = k
    · simp [getDay, h1]
    · simp only [getDay, h1, if_false] at hs
      simp only [List.cons_append, getDay, h1, if_false]
      exact ih hs

theorem getDay_append_of_none (m₂ : List (Int × DayEntry)) (k : Int) :
    ∀ m : List (Int × DayEntry), getDay m k = none →
      getDay (m ++ m₂) k = getDay m₂ k := by
  intro m
  induction m with
  | nil => intro _; simp
  | cons p rest ih =>
    obtain ⟨pk, pe⟩ := p
    intro hn
    by_cases h1 : pk = k
    · simp [getDay, h1] at hn
    · simp only [getDay, h1, if_false] at hn
      simp only [List.cons_append, getDay, h1, if_false]
      exact ih hn

theorem getDay_of_mem_of_nodupKeys :
    ∀ (m : List (Int × DayEntry)), (m.map Prod.fst).Nodup →
      ∀ p ∈ m, getDay m p.1 = some p.2 := by
  intro m
  induction m with
  | nil => intro _ p hp; simp at hp
  | cons q rest ih =>
    intro hnd p hp
    have hq : q.1 ∉ rest.map Prod.fst := by
      have := List.pairwise_cons.mp hnd
      intro hmem
      obtain ⟨r, hr, hre⟩ := List.mem_map.mp hmem
      exact this.1 r.1 (List.mem_map.mpr ⟨r, hr, rfl⟩) hre.symm
    rcases List.mem_cons.mp hp with rfl | hp'
    · simp [getDay]
    · have hne : ¬ q.1 = p.1 := by
        intro he
        exact hq (he ▸ List.mem_map.mpr ⟨p, hp', rfl⟩)
      unfold getDay
      simp only [hne, if_false]
      exact ih (List.Pairwise.of_cons hnd) p hp'

theorem lookupCell_gridStep (c : Criteria) (h : Hourly) (now : Int)
    (st : List (Int × DayEntry) × List Int) (i : Nat) (k hr : Int) :
    lookupCell (gridStep c h now st i).1 k hr =
      if dayFloor (timeAt h i) = k ∧ hourOf (timeAt h i) = hr then
        some (mkCell c h now i)
      else lookupCell st.1 k hr := by
  simp only [gridStep, lookupCell]
  rw [getDay_setDayHours]
  by_cases h1 : dayFloor (timeAt h i) = k
  · subst h1
    rw [if_pos rfl]
    by_cases hd : hasDay st.1 (dayFloor (timeAt h i)) = true
    · rw [if_pos hd]
      have hsome : (getDay st.1 (dayFloor (timeAt h i))).isSome = true :=
        (getDay_isSome_iff_mem st.1 _).mpr ((hasDay_iff_mem_keys st.1 _).mp hd)
      obtain ⟨e, he⟩ := Option.isSome_iff_exists.mp hsome
      rw [he, Option.map_some', Option.some_bind]
      by_cases h2 : hourOf (timeAt h i) = hr
      · rw [if_pos ⟨rfl, h2⟩]
        show mapGet (mapSet e.hours (hourOf (timeAt h i)) (mkCell c h now i))
          hr = some (mkCell c h now i)
        rw [mapGet_mapSet, if_pos h2]
      · have hcond2 : ¬ (dayFloor (timeAt h i) = dayFloor (timeAt h i) ∧
            hourOf (timeAt h i) = hr) := fun hc => h2 hc.2
        rw [if_neg hcond2, Option.some_bind]
        show mapGet (mapSet e.hours (hourOf (timeAt h i)) (mkCell c h now i))
          hr = mapGet e.hours hr
        rw [mapGet_mapSet, if_neg h2]
    · rw [if_neg hd]
      have hnone : getDay st.1 (dayFloor (timeAt h i)) = none := by
        cases hg : getDay st.1 (dayFloor (timeAt h i)) with
        | none => rfl
        | some e =>
          exact absurd ((hasDay_iff_mem_keys _ _).mpr
            ((getDay_isSome_iff_mem _ _).mp (by rw [hg]; rfl))) hd
      rw [getDay_append_of_none _ _ st.1 hnone]
      have hone : getDay
          [(dayFloor (timeAt h i), DayEntry.mk (timeAt h i) [])]
          (dayFloor (timeAt h i)) = some (DayEntry.mk (timeAt h i) []) := by
        simp [getDay]
      rw [hone, Option.map_some', Option.some_bind]
      by_cases h2 : hourOf (timeAt h i) = hr
      · rw [if_pos ⟨rfl, h2⟩]
        show mapGet (mapSet [] (hourOf (timeAt h i)) (mkCell c h now i)) hr =
          some (mkCell c h now i)
        rw [mapGet_mapSet, if_pos h2]
      · have hcond2 : ¬ (dayFloor (timeAt h i) = dayFloor (timeAt h i) ∧
            hourOf (timeAt h i) = hr) := fun hc => h2 hc.2
        rw [if_neg hcond2, hnone, Option.none_bind]
        show mapGet (mapSet [] (hourOf (timeAt h i)) (mkCell c h now i)) hr =
          none
        rw [mapGet_mapSet, if_neg h2]
        rfl
  · have hcond : ¬ (dayFloor (timeAt h i) = k ∧ hourOf (timeAt h i) = hr) :=
      fun hc => h1 hc.1
    rw [if_neg h1, if_neg hcond]
    have hdm1k : getDay
        (if hasDay st.1 (dayFloor (timeAt h i)) = true then st.1
          else st.1 ++ [(dayFloor (timeAt h i), DayEntry.mk (timeAt h i) [])])
        k = getDay st.1 k := by
      by_cases hd : hasDay st.1 (dayFloor (timeAt h i)) = true
      · rw [if_pos hd]
      · rw [if_neg hd]
        cases hg : getDay st.1 k with
        | some e =>
          rw [getDay_append_of_isSome _ k st.1 (by rw [hg]; rfl), hg]
        | none =>
          rw [getDay_append_of_none _ k st.1 hg]
          simp [getDay, h1]
    rw [hdm1k]

theorem lookupCell_gridLoop (c : Criteria) (h : Hourly) (now : Int) :
    ∀ (l : List Nat) (st : List (Int × DayEntry) × List Int) (k hr : Int),
      lookupCell (gridLoop c h now l st).1 k hr =
        match (l.filter (fun i => decide (dayFloor (timeAt h i) = k) &&
            decide (hourOf (timeAt h i) = hr))).getLast? with
        | some i => some (mkCell c h now i)
        | none => lookupCell st.1 k hr := by
  intro l
  induction l with
  | nil => intro st k hr; rfl
  | cons i rest ih =>
    intro st k hr
    have hstep : gridLoop c h now (i :: rest) st =
        gridLoop c h now rest (gridStep c h now st i) := rfl
    rw [hstep, ih (gridStep c h now st i) k hr, List.filter_cons]
    by_cases hc : dayFloor (timeAt h i) = k ∧ hourOf (timeAt h i) = hr
    · have hb : (decide (dayFloor (timeAt h i) = k) &&
          decide (hourOf (timeAt h i) = hr)) = true := by
        simp [hc.1, hc.2]
      simp only [hb, if_true]
      cases hq : (rest.filter (fun i => decide (dayFloor (timeAt h i) = k) &&
          decide (hourOf (timeAt h i) = hr))).getLast? with
      | some j => simp [List.getLast?_cons, hq]
      | none =>
        simp only [List.getLast?_cons, hq, Option.getD_none]
        rw [lookupCell_gridStep]
        simp [hc]
    · have hb : (decide (dayFloor (timeAt h i) = k) &&
          decide (hourOf (timeAt h i) = hr)) = false := by
        rcases Decidable.not_and_iff_or_not.mp hc with hcl | hcl <;> simp [hcl]
      simp only [hb, Bool.false_eq_true, if_false]
      cases hq : (rest.filter (fun i => decide (dayFloor (timeAt h i) = k) &&
          decide (hourOf (timeAt h i) = hr))).getLast? with
      | some j => rfl
      | none =>
        rw [lookupCell_gridStep]
        simp [hc]

/-! ## Bridges: the total model is the all-arrays-present slice -/

theorem scanWindowsJs_toJs (c : Criteria) (h : Hourly) :
    ∀ (l : List Nat) (cur : Option Int) (acc : List RidingWindow),
      scanWindowsJs c
        ⟨some h.time, some h.precipitation, some h.wind_speed_10m,
          some h.temperature_2m⟩ h.time l cur acc =
        some (scanWindows c h l cur acc) := by
  intro l
  induction l with
  | nil => intro cur acc; rfl
  | cons i rest ih =>
    intro cur acc
    have hsuit : suitJs c h.precipitation[i]? h.wind_speed_10m[i]?
        h.temperature_2m[i]? = isSuitable c h i := rfl
    simp only [scanWindowsJs, readHourJs, hsuit]
    by_cases hs : isSuitable c h i = true
    · simp only [scanWindows, hs, if_true]
      cases cur <;> exact ih _ _
    · rw [Bool.not_eq_true] at hs
      simp only [scanWindows, hs, Bool.false_eq_true, if_false]
      cases cur <;> exact ih _ _

theorem findRidingWindowsJs_toJs (c : Criteria) (h : Hourly) :
    findRidingWindowsJs (some (.withHourly h.toJs)) c =
      some (findRidingWindows c h) := by
  simp only [findRidingWindowsJs, findRidingWindows, Hourly.toJs]
  rw [scanWindowsJs_toJs]
  cases hsc : scanWindows c h (List.range h.time.length) none [] with
  | mk acc cur => cases cur <;> rfl

theorem mkCellJs_toJs (c : Criteria) (h : Hourly) (now : Int) (i : Nat) :
    mkCellJs c
      ⟨some h.time, some h.precipitation, some h.wind_speed_10m,
        some h.temperature_2m⟩ now (timeAt h i) i =
      some (mkCell c h now i) := rfl

theorem gridStepJs_toJs (c : Criteria) (h : Hourly) (now : Int)
    (st : List (Int × DayEntry) × List Int) (i : Nat) :
    gridStepJs c
      ⟨some h.time, some h.precipitation, some h.wind_speed_10m,
        some h.temperature_2m⟩ now h.time st i =
      some (gridStep c h now st i) := rfl

theorem gridLoopJs_toJs (c : Criteria) (h : Hourly) (now : Int) :
    ∀ (l : List Nat) (st : List (Int × DayEntry) × List Int),
      gridLoopJs c
        ⟨some h.time, some h.precipitation, some h.wind_speed_10m,
          some h.temperature_2m⟩ now h.time l st =
        some (gridLoop c h now l st) := by
  intro l
  induction l with
  | nil => intro st; rfl
  | cons i rest ih =>
    intro st
    simp only [gridLoopJs, gridStepJs_toJs]
    exact ih _

theorem organizeWeatherGridJs_toJs (c : Criteria) (h : Hourly) (now : Int) :
    organizeWeatherGridJs (some (.withHourly h.toJs)) c now =
      some (organizeWeatherGrid c h now) := by
  simp only [organizeWeatherGridJs, Hourly.toJs]
  rw [gridLoopJs_toJs]
  rfl

/-! ## Claim theorems: guards, fetch machine, purity -/

/-- C2 counterexample.  A payload whose `hourly` is truthy but lacks the
arrays passes the `!weatherData || !weatherData.hourly` guard, and the
derivations then throw a TypeError (`none`): with `hourly = {}` both crash
at `time.length`, and with `hourly = {time: [0]}` both crash at the first
iteration's `precipitation[i]` read — refuting "neither function crashes for
any absent/malformed hourly payload shape". -/
theorem malformed_hourly_payload_crashes :
    findRidingWindowsJs (some (.withHourly ⟨none, none, none, none⟩))
      ⟨0, 20, 10, 35⟩ = none ∧
    organizeWeatherGridJs (some (.withHourly ⟨none, none, none, none⟩))
      ⟨0, 20, 10, 35⟩ 0 = none ∧
    findRidingWindowsJs (some (.withHourly ⟨some [0], none, none, none⟩))
      ⟨0, 20, 10, 35⟩ = none ∧
    organizeWeatherGridJs (some (.withHourly ⟨some [0], none, none, none⟩))
      ⟨0, 20, 10, 35⟩ 0 = none :=
  ⟨rfl, rfl, rfl, rfl⟩

/-- C2 amended.  The guard covers only a `null` payload and a falsy `hourly`
field: on those shapes `findRidingWindows` returns `[]` and
`organizeWeatherGrid` returns `{days: [], hours: [], grid: []}` without
raising, and a present-but-empty `time` array (`N = 0`, Scenario B) also
yields the empty results because the loops never run — but not every
absent/malformed hourly shape is tolerated (see the counterexample). -/
theorem derivations_safe_on_guarded_payload (c : Criteria) (now : Int)
    (wd : Option PayloadJs) (hwd : wd = none ∨ wd = some .noHourly) :
    findRidingWindowsJs wd c = some [] ∧
    organizeWeatherGridJs wd c now = some ⟨[], [], []⟩ ∧
    ∀ hj : HourlyJs, hj.time = some [] →
      findRidingWindowsJs (some (.withHourly hj)) c = some [] ∧
      organizeWeatherGridJs (some (.withHourly hj)) c now =
        some ⟨[], [], []⟩ := by
  refine ⟨?_, ?_, ?_⟩
  · rcases hwd with rfl | rfl <;> rfl
  · rcases hwd with rfl | rfl <;> rfl
  · intro hj htime
    constructor
    · simp [findRidingWindowsJs, htime, scanWindowsJs]
    · simp [organizeWeatherGridJs, htime, gridLoopJs, sortByKey]

/-- C2 witness: the `null` payload, and the all-empty hourly arrays. -/
theorem derivations_safe_on_guarded_payload_witness :
    findRidingWindowsJs none ⟨0, 20, 10, 35⟩ = some [] ∧
    organizeWeatherGridJs none ⟨0, 20, 10, 35⟩ 0 = some ⟨[], [], []⟩ ∧
    ∀ hj : HourlyJs, hj.time = some [] →
      findRidingWindowsJs (some (.withHourly hj)) ⟨0, 20, 10, 35⟩ =
        some [] ∧
      organizeWeatherGridJs (some (.withHourly hj)) ⟨0, 20, 10, 35⟩ 0 =
        some ⟨[], [], []⟩ :=
  derivations_safe_on_guarded_payload ⟨0, 20, 10, 35⟩ 0 none (Or.inl rfl)

/-- C3 counterexample (Scenario D).  Requests are issued for A then B
(two `start` transitions); B's response arrives first, A's stale response
last.  The code has no request tag, so the stale response for A overwrites
B's payload: the final state holds A's payload, not B's. -/
theorem stale_response_overwrites_scenarioD :
    applyEvents initialFetchSt
      [.start, .start, .resolveOk (payloadOneHour 20),
       .resolveOk (payloadOneHour 15)] =
      ⟨some (payloadOneHour 15), false, ""⟩ ∧
    payloadOneHour 15 ≠ payloadOneHour 20 := by
  constructor
  · rfl
  · decide

/-- C3 amended: `fetchWeatherData` resolutions write the state
unconditionally, so the final fetch state reflects whichever response
arrives last (last-response-wins), regardless of issue order; in Scenario D
the final state holds A's stale payload. -/
theorem fetch_last_response_wins (s : FetchSt) (es : List FetchEvent)
    (d : Payload) :
    (applyEvents s (es ++ [.resolveOk d])).weatherData = some d ∧
    (applyEvents s (es ++ [.resolveOk d])).loading = false := by
  unfold applyEvents
  rw [List.foldl_append]
  exact ⟨rfl, rfl⟩

/-- C8.  A fetch invocation with non-falsy coordinates enters Loading; when
its response settles with an error (non-2xx throws in the `try`), the
`catch`/`finally` branches leave Loading and set the generic error message;
and a later refresh can still reach Ready: after an error, `start` followed
by a 2xx resolution yields the Ready state carrying the new payload. -/
theorem fetch_leaves_loading_and_recovers (a b : String) (ha : a ≠ "")
    (hb : b ≠ "") (s : FetchSt) (d : Payload) :
    (fetchInvoke (some a) (some b) s).loading = true ∧
    applyEvent (fetchInvoke (some a) (some b) s) .resolveErr =
      ⟨none, false, fetchErrorMessage⟩ ∧
    (applyEvent (fetchInvoke (some a) (some b) s) (.resolveOk d)).loading =
      false ∧
    applyEvents s [.start, .resolveErr, .start, .resolveOk d] =
      ⟨some d, false, ""⟩ := by
  have hinv : fetchInvoke (some a) (some b) s = ⟨none, true, ""⟩ := by
    unfold fetchInvoke coordFalsy
    simp [ha, hb, applyEvent]
  refine ⟨?_, ?_, ?_, rfl⟩ <;> rw [hinv] <;> rfl

/-- C8 witness at concrete coordinates and payload. -/
theorem fetch_leaves_loading_and_recovers_witness :
    (fetchInvoke (some "-37.8136") (some "144.9631") initialFetchSt).loading =
      true ∧
    applyEvent (fetchInvoke (some "-37.8136") (some "144.9631") initialFetchSt)
      .resolveErr = ⟨none, false, fetchErrorMessage⟩ ∧
    (applyEvent (fetchInvoke (some "-37.8136") (some "144.9631") initialFetchSt)
      (.resolveOk (payloadOneHour 15))).loading = false ∧
    applyEvents initialFetchSt
      [.start, .resolveErr, .start, .resolveOk (payloadOneHour 15)] =
      ⟨some (payloadOneHour 15), false, ""⟩ :=
  fetch_leaves_loading_and_recovers "-37.8136" "144.9631" (by decide)
    (by decide) initialFetchSt (payloadOneHour 15)

/-- C9.  The derivations are pure: their results depend on nothing but the
payload, the criteria and the evaluation instant.  Two component states that
agree on those (but may differ in every other field: coordinates, loading
flag, error string, city name) produce identical windows and grids. -/
theorem derivations_depend_only_on_inputs (s₁ s₂ : AppState)
    (hw : s₁.weatherData = s₂.weatherData) (hc : s₁.criteria = s₂.criteria)
    (hn : s₁.now = s₂.now) :
    s₁.ridingWindows = s₂.ridingWindows ∧ s₁.weatherGrid = s₂.weatherGrid := by
  unfold AppState.ridingWindows AppState.weatherGrid
  rw [hw, hc, hn]
  exact ⟨rfl, rfl⟩

/-- C9 witness: two states sharing payload/criteria/now but differing in
coordinates, loading flag, error and city name derive the same results. -/
theorem derivations_depend_only_on_inputs_witness :
    (AppState.mk none none 0 20 10 35 (some (payloadOneHour 15)) false ""
      "Melbourne" 0).ridingWindows =
    (AppState.mk (some "1") (some "2") 0 20 10 35 (some (payloadOneHour 15))
      true "oops" "Sydney" 0).ridingWindows ∧
    (AppState.mk none none 0 20 10 35 (some (payloadOneHour 15)) false ""
      "Melbourne" 0).weatherGrid =
    (AppState.mk (some "1") (some "2") 0 20 10 35 (some (payloadOneHour 15))
      true "oops" "Sydney" 0).weatherGrid :=
  derivations_depend_only_on_inputs _ _ rfl rfl rfl

/-- C1.  `findRidingWindows` implements the single forward-pass scan of
spec §4.3: on any forecast whose parallel arrays have equal length it agrees
with `deriveWindowsSpec`, the scan written from the specification text
(open at `timestamp[i]` when suitable with no window open, close with end
`timestamp[i]` at the first unsuitable index, close a still-open window with
end `timestamp[N-1] + 1 hour`); and on the Scenario A input it returns
exactly the two windows split around the wind spike,
`[hour0, hour2)` and `[hour3, hour4+1h)`. -/
theorem findRidingWindows_implements_scan (c : Criteria) (h : Hourly)
    (hp : h.precipitation.length = h.time.length)
    (hw : h.wind_speed_10m.length = h.time.length)
    (ht : h.temperature_2m.length = h.time.length) :
    findRidingWindows c h = deriveWindowsSpec c h ∧
    findRidingWindows scenarioACriteria scenarioAHourly =
      [⟨0, 7200000⟩, ⟨10800000, 14400000⟩] := by
  constructor
  · rw [findRidingWindows_eq_closeScan, List.range_eq_range']
    unfold deriveWindowsSpec
    have hb := scanWindows_spec_bridge c h hp hw ht
      (timeAt h (h.time.length - 1) + hourMs) h.time.length 0 (by omega) none
    simp only [List.drop_zero] at hb
    exact hb
  · decide

/-- C1 witness: the refinement instantiated on the Scenario A forecast. -/
theorem findRidingWindows_implements_scan_witness :
    scenarioAHourly.precipitation.length = scenarioAHourly.time.length ∧
    scenarioAHourly.wind_speed_10m.length = scenarioAHourly.time.length ∧
    scenarioAHourly.temperature_2m.length = scenarioAHourly.time.length ∧
    (findRidingWindows scenarioACriteria scenarioAHourly =
        deriveWindowsSpec scenarioACriteria scenarioAHourly ∧
      findRidingWindows scenarioACriteria scenarioAHourly =
        [⟨0, 7200000⟩, ⟨10800000, 14400000⟩]) :=
  ⟨rfl, rfl, rfl,
    findRidingWindows_implements_scan scenarioACriteria scenarioAHourly
      rfl rfl rfl⟩

/-- C4.  On any forecast with strictly increasing timestamps, the windows
returned by `findRidingWindows` have end strictly above start, are pairwise
non-overlapping (each window ends no later than the next begins), and are in
chronological order of start. -/
theorem findRidingWindows_ordered_disjoint (c : Criteria) (h : Hourly)
    (hsorted : List.Pairwise (· < ·) h.time) :
    (∀ w ∈ findRidingWindows c h, w.start < w.stop) ∧
    List.Pairwise (fun a b => a.stop ≤ b.start) (findRidingWindows c h) ∧
    List.Pairwise (fun a b => a.start < b.start) (findRidingWindows c h) := by
  have hmono : ∀ i j : Nat, i < j → j < h.time.length →
      timeAt h i < timeAt h j := by
    intro i j hij hj
    have hi : i < h.time.length := lt_trans hij hj
    have hlt := List.pairwise_iff_getElem.mp hsorted i j hi hj hij
    unfold timeAt
    rw [List.getD_eq_getElem?_getD, List.getElem?_eq_getElem hi,
        List.getD_eq_getElem?_getD, List.getElem?_eq_getElem hj]
    exact hlt
  have inv := scanWindows_invariant c h hmono (List.range h.time.length)
    none []
    (fun i hi => List.mem_range.mp hi) (List.pairwise_lt_range _)
    (fun w hw => by simp at hw) (by trivial)
    (fun s hs => by cases hs) (fun _ w hw => by simp at hw)
  have hfin : ∀ ws : List RidingWindow,
      (∀ w ∈ ws, w.start < w.stop) →
      List.Chain' (fun a b => a.stop ≤ b.start) ws →
      (∀ w ∈ ws, w.start < w.stop) ∧
      List.Pairwise (fun a b => a.stop ≤ b.start) ws ∧
      List.Pairwise (fun a b => a.start < b.start) ws := by
    intro ws hpos hchain
    have hpw := windows_chain'_pairwise ws hpos hchain
    refine ⟨hpos, hpw, ?_⟩
    refine hpw.imp_of_mem ?_
    intro a b ha _ hab
    have := hpos a ha
    linarith
  rcases hscan : scanWindows c h (List.range h.time.length) none [] with
    ⟨acc, cur⟩
  rw [hscan] at inv
  unfold findRidingWindows
  rw [hscan]
  cases cur with
  | none => exact hfin acc inv.1 inv.2.1
  | some s =>
    obtain ⟨⟨j, hjN, hsj⟩, hstops⟩ := inv.2.2 s rfl
    have hN : 0 < h.time.length := by omega
    have hsle : s ≤ timeAt h (h.time.length - 1) := by
      rcases Nat.lt_or_ge j (h.time.length - 1) with hlt | hge
      · exact le_of_lt (hsj ▸ hmono j (h.time.length - 1) hlt (by omega))
      · have : j = h.time.length - 1 := by omega
        rw [hsj, this]
    have hlast : s < timeAt h (h.time.length - 1) + hourMs := by
      have hpos : (0 : Int) < hourMs := by norm_num [hourMs]
      linarith
    apply hfin
    · intro w hw
      rcases List.mem_append.mp hw with hw' | hw'
      · exact inv.1 w hw'
      · rcases List.mem_singleton.mp hw' with rfl
        exact hlast
    · rw [List.chain'_append]
      refine ⟨inv.2.1, List.chain'_singleton _, ?_⟩
      intro x hx y hy
      have hyw : RidingWindow.mk s (timeAt h (h.time.length - 1) + hourMs) = y := by
        simpa using hy
      rw [← hyw]
      exact hstops x (List.mem_of_mem_getLast? hx)

/-- C4 witness: the Scenario A forecast has strictly increasing timestamps
and its two windows satisfy all three ordering properties. -/
theorem findRidingWindows_ordered_disjoint_witness :
    List.Pairwise (· < ·) scenarioAHourly.time ∧
    ((∀ w ∈ findRidingWindows scenarioACriteria scenarioAHourly,
        w.start < w.stop) ∧
      List.Pairwise (fun a b => a.stop ≤ b.start)
        (findRidingWindows scenarioACriteria scenarioAHourly) ∧
      List.Pairwise (fun a b => a.start < b.start)
        (findRidingWindows scenarioACriteria scenarioAHourly)) :=
  ⟨by decide,
    findRidingWindows_ordered_disjoint scenarioACriteria scenarioAHourly
      (by decide)⟩

/-- C7.  For every forecast, criteria and evaluation instant, the day list
produced by `organizeWeatherGrid` is sorted strictly ascending by date and
contains no duplicate calendar days, and its hour list contains only
hour-of-day values `≥ 6`, sorted strictly ascending (hence duplicate-free). -/
theorem grid_days_hours_sorted (c : Criteria) (h : Hourly) (now : Int) :
    List.Pairwise (fun a b => a.date < b.date)
      (organizeWeatherGrid c h now).days ∧
    List.Pairwise (fun a b => dayFloor a.date ≠ dayFloor b.date)
      (organizeWeatherGrid c h now).days ∧
    (∀ x ∈ (organizeWeatherGrid c h now).hours, 6 ≤ x) ∧
    List.Pairwise (· < ·) (organizeWeatherGrid c h now).hours := by
  obtain ⟨hkeys, hdates, hhs⟩ := gridLoop_dayInv c h now
    (List.range h.time.length) [] [] (by simp) (by simp) (by simp)
  have hdaysdef : (organizeWeatherGrid c h now).days =
      sortByKey (fun e => e.date)
        ((gridLoop c h now (List.range h.time.length) ([], [])).1.map
          (fun p => p.2)) := rfl
  have hhoursdef : (organizeWeatherGrid c h now).hours =
      (sortByKey (fun x => x)
        (gridLoop c h now (List.range h.time.length) ([], [])).2).filter
        (fun x => decide (6 ≤ x)) := rfl
  have hsorted_days : List.Pairwise (fun a b => a.date ≤ b.date)
      (organizeWeatherGrid c h now).days := by
    rw [hdaysdef]
    exact sortByKey_sorted (fun e : DayEntry => e.date) _
  have hmapkeys :
      ((gridLoop c h now (List.range h.time.length) ([], [])).1.map
        (fun p => p.2)).map (fun e => dayFloor e.date) =
      (gridLoop c h now (List.range h.time.length) ([], [])).1.map
        Prod.fst := by
    rw [List.map_map]
    exact List.map_congr_left (fun p hp => hdates p hp)
  have hne_days : List.Pairwise (fun a b => dayFloor a.date ≠ dayFloor b.date)
      (organizeWeatherGrid c h now).days := by
    have h2 : (((gridLoop c h now (List.range h.time.length) ([], [])).1.map
        (fun p => p.2)).map (fun e => dayFloor e.date)).Nodup := by
      rw [hmapkeys]; exact hkeys
    have h3 := List.pairwise_map.mp h2
    rw [hdaysdef]
    exact ((sortByKey_perm (fun e => e.date) _).pairwise_iff
      (fun hab => Ne.symm hab)).mpr h3
  refine ⟨?_, hne_days, ?_, ?_⟩
  · exact (hsorted_days.and hne_days).imp (fun hab => by
      obtain ⟨hle, hne⟩ := hab
      refine lt_of_le_of_ne hle ?_
      intro heq
      exact hne (congrArg dayFloor heq))
  · intro x hx
    rw [hhoursdef] at hx
    exact of_decide_eq_true ((List.mem_filter.mp hx).2)
  · have hsorted : List.Pairwise (fun a b : Int => a ≤ b)
        (sortByKey (fun x => x)
          (gridLoop c h now (List.range h.time.length) ([], [])).2) :=
      sortByKey_sorted (fun x => x) _
    have hnd : (sortByKey (fun x => x)
        (gridLoop c h now (List.range h.time.length) ([], [])).2).Nodup :=
      ((sortByKey_perm (fun x => x) _).nodup_iff).mpr hhs
    have hlt := (hsorted.and hnd).imp
      (fun hab : _ ∧ _ => lt_of_le_of_ne hab.1 hab.2)
    rw [hhoursdef]
    exact hlt.filter _

/-- C10.  Later observations overwrite earlier ones: for every day row of the
grid and every hour column, the stored cell is exactly the cell built from
the last input index whose observation falls on that day and hour (so when
two or more observations share a `(day, hour)` slot, the one with the
largest index wins); the cell is absent when no observation matches. -/
theorem grid_cell_last_observation_wins (c : Criteria) (h : Hourly)
    (now : Int) (e : DayEntry)
    (he : e ∈ (organizeWeatherGrid c h now).days) (hr : Int) :
    mapGet e.hours hr =
      ((List.range h.time.length).filter
        (fun i => decide (dayFloor (timeAt h i) = dayFloor e.date) &&
          decide (hourOf (timeAt h i) = hr))).getLast?.map
        (mkCell c h now) := by
  obtain ⟨hkeys, hdates, _⟩ := gridLoop_dayInv c h now
    (List.range h.time.length) [] [] (by simp) (by simp) (by simp)
  have hdaysdef : (organizeWeatherGrid c h now).days =
      sortByKey (fun e : DayEntry => e.date)
        ((gridLoop c h now (List.range h.time.length) ([], [])).1.map
          (fun p => p.2)) := rfl
  rw [hdaysdef] at he
  have he2 : e ∈ (gridLoop c h now (List.range h.time.length) ([], [])).1.map
      (fun p => p.2) := (sortByKey_perm _ _).mem_iff.mp he
  obtain ⟨p, hp, hpe⟩ := List.mem_map.mp he2
  have hkey : p.1 = dayFloor e.date := by
    rw [← hpe]
    exact (hdates p hp).symm
  have hget : getDay (gridLoop c h now (List.range h.time.length)
      ([], [])).1 p.1 = some p.2 :=
    getDay_of_mem_of_nodupKeys _ hkeys p hp
  have hlook : lookupCell (gridLoop c h now (List.range h.time.length)
      ([], [])).1 (dayFloor e.date) hr = mapGet e.hours hr := by
    unfold lookupCell
    rw [← hkey, hget, Option.some_bind, hpe]
  have hloop := lookupCell_gridLoop c h now (List.range h.time.length)
    ([], []) (dayFloor e.date) hr
  rw [hlook] at hloop
  rw [hloop]
  cases hq : ((List.range h.time.length).filter
      (fun i => decide (dayFloor (timeAt h i) = dayFloor e.date) &&
        decide (hourOf (timeAt h i) = hr))).getLast? with
  | some j => simp [hq]
  | none => simp [hq, lookupCell, getDay]

/-- C10 witness: two observations share the `(day 0, hour 0)` slot
(`time = [0, 0]`) with temperatures `10` then `11`; the stored cell is the
one built from index 1 (temperature `11`). -/
theorem grid_cell_last_observation_wins_witness :
    DayEntry.mk 0
        [(0, mkCell ⟨0, 20, 10, 35⟩ (Hourly.mk [0, 0] [0, 0] [5, 5] [10, 11])
          0 1)] ∈
      (organizeWeatherGrid ⟨0, 20, 10, 35⟩
        (Hourly.mk [0, 0] [0, 0] [5, 5] [10, 11]) 0).days ∧
    mapGet (DayEntry.mk 0
        [(0, mkCell ⟨0, 20, 10, 35⟩ (Hourly.mk [0, 0] [0, 0] [5, 5] [10, 11])
          0 1)]).hours 0 =
      ((List.range (Hourly.mk [0, 0] [0, 0] [5, 5] [10, 11]).time.length).filter
        (fun i => decide (dayFloor
            (timeAt (Hourly.mk [0, 0] [0, 0] [5, 5] [10, 11]) i) =
          dayFloor (DayEntry.mk 0
            [(0, mkCell ⟨0, 20, 10, 35⟩
              (Hourly.mk [0, 0] [0, 0] [5, 5] [10, 11]) 0 1)]).date) &&
          decide (hourOf
            (timeAt (Hourly.mk [0, 0] [0, 0] [5, 5] [10, 11]) i) =
            0))).getLast?.map
        (mkCell ⟨0, 20, 10, 35⟩ (Hourly.mk [0, 0] [0, 0] [5, 5] [10, 11]) 0) :=
  ⟨by decide,
    grid_cell_last_observation_wins ⟨0, 20, 10, 35⟩
      (Hourly.mk [0, 0] [0, 0] [5, 5] [10, 11]) 0
      (DayEntry.mk 0
        [(0, mkCell ⟨0, 20, 10, 35⟩ (Hourly.mk [0, 0] [0, 0] [5, 5] [10, 11])
          0 1)])
      (by decide) 0⟩

/-- C6.  Degenerate criteria: when `maxTemperature < minTemperature`, no hour
can pass both temperature bounds, so `findRidingWindows` returns `[]` on any
(non-empty) forecast. -/
theorem degenerate_criteria_empty (c : Criteria) (h : Hourly)
    (hc : c.maxTemperature < c.minTemperature) (_hne : h.time ≠ []) :
    findRidingWindows c h = [] := by
  unfold findRidingWindows
  rw [scanWindows_all_unsuitable c h (List.range h.time.length) []
    (fun i _ => isSuitable_of_degenerate c hc h i)]

/-- C6 witness: `maxTemperature = 5 < 10 = minTemperature` on the Scenario A
forecast. -/
theorem degenerate_criteria_empty_witness :
    (5 : Rat) < 10 ∧ scenarioAHourly.time ≠ [] ∧
    findRidingWindows ⟨0, 20, 10, 5⟩ scenarioAHourly = [] :=
  ⟨by norm_num, by decide,
    degenerate_criteria_empty ⟨0, 20, 10, 5⟩ scenarioAHourly (by norm_num)
      (by decide)⟩

/-- C5.  When every hourly observation is suitable and the forecast is
non-empty, `findRidingWindows` returns exactly one window from `time[0]`
to `time[N-1] + 1 hour`. -/
theorem all_suitable_single_window (c : Criteria) (h : Hourly)
    (hne : h.time ≠ [])
    (hall : ∀ i < h.time.length, isSuitable c h i = true) :
    findRidingWindows c h =
      [⟨timeAt h 0, timeAt h (h.time.length - 1) + hourMs⟩] := by
  obtain ⟨n, hn⟩ : ∃ n, h.time.length = n + 1 := by
    cases hl : h.time.length with
    | zero => exact absurd (List.length_eq_zero.mp hl) hne
    | succ n => exact ⟨n, rfl⟩
  unfold findRidingWindows
  rw [hn, List.range_succ_eq_map]
  have h0 : isSuitable c h 0 = true := hall 0 (by omega)
  simp only [scanWindows, h0, if_true]
  rw [scanWindows_all_suitable c h _ _ []
    (fun j hj => by
      have : j < h.time.length := by
        obtain ⟨m, hm, rfl⟩ := List.mem_map.mp hj
        have := List.mem_range.mp hm
        omega
      exact hall j this)]
  simp [hn]

/-- C5 witness: the Scenario A forecast with the wind spike removed is fully
suitable and yields the single spanning window. -/
theorem all_suitable_single_window_witness :
    (Hourly.mk [0, 3600000, 7200000, 10800000] [0, 0, 0, 0] [5, 5, 5, 5]
        [15, 15, 15, 15]).time ≠ [] ∧
    findRidingWindows scenarioACriteria
      (Hourly.mk [0, 3600000, 7200000, 10800000] [0, 0, 0, 0] [5, 5, 5, 5]
        [15, 15, 15, 15]) = [⟨0, 14400000⟩] := by
  constructor
  · decide
  · have := all_suitable_single_window scenarioACriteria
      (Hourly.mk [0, 3600000, 7200000, 10800000] [0, 0, 0, 0] [5, 5, 5, 5]
        [15, 15, 15, 15]) (by decide) (by decide)
    simpa using this

end RideReady
